import Mathlib

/-!
# Geometry-driven detector assembly engine — shallow embedding

This file embeds the geometry assembly/disassembly engine of EXtra-foam
(`f_geometry.hpp`, exercised by `test/test_geometry.cpp`) in Lean 4 and
proves the spec's testable properties about it.

The concrete C++ header `f_geometry.hpp` is not among the provided sources;
only its test suite (`test/test_geometry.cpp`) and the dispatch traits
(`f_pyconfig.hpp`: `IsImage` for 2-D tensors, `IsImageArray` for 3-D,
`IsModulesArray` for 4-D, `IsModulesVector` for vectors of 3-D tensors)
are available.  The engine itself is therefore modelled from the spec:
module data and canvases are shape-annotated pixel functions, the copy
loops of `positionAllModules` / `dismantleAllModules` are folds over the
module indices writing rectangular blocks, and errors (`std::invalid_argument`
in C++) are an explicit `Except` error value raised by validate-then-copy.
Pixel values are an arbitrary type `α`; the floating-point NaN sentinel is
modelled as an explicit designated value `nanv : α`.
-/

namespace foam

/-- Modelled from the spec: the single error condition of the engine.
Every failure (invalid geometry configuration, shape mismatch) surfaces as
C++ `std::invalid_argument`; we model it as one constructor carrying a
message. -/
inductive FoamError where
  | invalidArgument : String → FoamError
deriving DecidableEq, Repr

/-- `true` exactly when an engine call failed. -/
def isErr {β : Type} : Except FoamError β → Bool
  | .error _ => true
  | .ok _ => false

/-- Modelled from the spec: a detector family descriptor (spec §2, §3, §9).
`moduleShape` is the (height, width) of one module, `asicShape` the
(height, width) of one internal read-out cell, `reqCols` the family's fixed
required column count of the module grid (spec §4.1: "a family requiring
exactly 2 columns rejects any other column count"; the tests reject 3 and 4
columns and accept 2 for both families), and `cellEdge` selects the
masking variant of §4.4 (`true`: cell-edge variant, `false`: whole-module-edge
variant). -/
structure DetectorFamily where
  moduleShape : Nat × Nat
  asicShape : Nat × Nat
  reqCols : Nat
  cellEdge : Bool
deriving DecidableEq, Repr

/-- Modelled from the spec: the JungFrau family.  The tests show it uses the
cell-edge masking variant (asic-band borders) and rejects a 3-column grid
while accepting 2 columns.  The spec gives no concrete pixel dimensions;
the values here are the detector's physical ones (512×1024 modules of
256×256 asics) — no claim depends on the exact numbers beyond positivity
and the asic shape dividing the module shape. -/
def JungFrau : DetectorFamily :=
  { moduleShape := (512, 1024), asicShape := (256, 256), reqCols := 2, cellEdge := true }

/-- Modelled from the spec: the ePix100 family.  The tests show it uses the
whole-module-edge masking variant (only the top and bottom module rows) and
rejects a 4-column grid while accepting 2 columns.  Pixel dimensions as for
`JungFrau`: physical values (708×768), not relied upon by any claim. -/
def EPix100 : DetectorFamily :=
  { moduleShape := (708, 768), asicShape := (354, 384), reqCols := 2, cellEdge := false }

/-- Modelled from the spec: the immutable Geometry Descriptor (spec §3, §4.1):
a detector family together with the chosen module-grid shape.  Constructed
only through `DetectorGeometry`; nothing in the model ever mutates it. -/
structure Geometry where
  family : DetectorFamily
  rows : Nat
  cols : Nat
deriving DecidableEq, Repr

/-- Modelled from the spec: the `DetectorGeometry<Detector>(rows, cols)`
constructor (spec §4.1).  Fails with the invalid-configuration error when
the column count differs from the family's required one, otherwise freezes
the descriptor. -/
def DetectorGeometry (fam : DetectorFamily) (rows cols : Nat) : Except FoamError Geometry :=
  if cols = fam.reqCols then .ok { family := fam, rows := rows, cols := cols }
  else .error (.invalidArgument "invalid number of columns")

/-- Module height of the geometry's family. -/
def Geometry.mh (g : Geometry) : Nat := g.family.moduleShape.1

/-- Module width of the geometry's family. -/
def Geometry.mw (g : Geometry) : Nat := g.family.moduleShape.2

/-- Asic (internal cell) height of the geometry's family. -/
def Geometry.ah (g : Geometry) : Nat := g.family.asicShape.1

/-- Asic (internal cell) width of the geometry's family. -/
def Geometry.aw (g : Geometry) : Nat := g.family.asicShape.2

/-- Total number of modules: `rows * cols` (spec §3). -/
def Geometry.nModules (g : Geometry) : Nat := g.rows * g.cols

/-- Derived assembled-canvas shape:
`(rows * moduleShape.height, cols * moduleShape.width)` (spec §3). -/
def Geometry.assembledShape (g : Geometry) : Nat × Nat :=
  (g.rows * g.mh, g.cols * g.mw)

/-- A 2-D pixel array (`IsImage` in `f_pyconfig.hpp`): a single image or a
single detector module, shape `(h, w)` with a total pixel function. -/
structure Image (α : Type) where
  h : Nat
  w : Nat
  px : Nat → Nat → α

/-- A 3-D pixel array (`IsImageArray` in `f_pyconfig.hpp`): a stack of 2-D
arrays along a leading axis (`np` frames of an assembled canvas, or the
modules of a single-frame source, or the frames of one module). -/
structure Frames (α : Type) where
  np : Nat
  h : Nat
  w : Nat
  px : Nat → Nat → Nat → α

instance {α : Type} [Inhabited α] : Inhabited (Image α) :=
  ⟨{ h := 0, w := 0, px := fun _ _ => default }⟩

instance {α : Type} [Inhabited α] : Inhabited (Frames α) :=
  ⟨{ np := 0, h := 0, w := 0, px := fun _ _ _ => default }⟩

/-- A 4-D pixel array (`IsModulesArray` in `f_pyconfig.hpp`): the canonical
"frame × module × module-row × module-column" view of module data
(spec §9: every accepted input form normalizes to this view). -/
structure Modules (α : Type) where
  np : Nat
  nm : Nat
  mh : Nat
  mw : Nat
  px : Nat → Nat → Nat → Nat → α

/-- All pixels of a 3-D array in its shape region equal the constant `a`. -/
def Frames.constOn {α : Type} (cv : Frames α) (a : α) : Prop :=
  ∀ f i j, f < cv.np → i < cv.h → j < cv.w → cv.px f i j = a

/-- All pixels of a 4-D module array in its shape region equal `a`. -/
def Modules.constOn {α : Type} (s : Modules α) (a : α) : Prop :=
  ∀ f m u v, f < s.np → m < s.nm → u < s.mh → v < s.mw → s.px f m u v = a

/-- Two 4-D module arrays agree pixelwise on the shape region of the first. -/
def Modules.eqOn {α : Type} (s t : Modules α) : Prop :=
  ∀ f m u v, f < s.np → m < s.nm → u < s.mh → v < s.mw → s.px f m u v = t.px f m u v

/-- Modelled from the spec: the inner copy of `positionAllModules` for one
module (spec §4.2 algorithm): module `m` sits at grid position
`(r, c) = (m / cols, m % cols)` and its `moduleShape` block is copied into
canvas rows `[r*mh, (r+1)*mh)` and columns `[c*mw, (c+1)*mw)` of every
frame; pixels outside that block keep the canvas's previous value. -/
def writeBlock {α : Type} (g : Geometry) (src : Modules α) (m : Nat)
    (cv : Frames α) : Frames α :=
  { cv with px := fun f i j =>
      if (m / g.cols) * g.mh ≤ i ∧ i < (m / g.cols) * g.mh + g.mh ∧
         (m % g.cols) * g.mw ≤ j ∧ j < (m % g.cols) * g.mw + g.mw then
        src.px f m (i - (m / g.cols) * g.mh) (j - (m % g.cols) * g.mw)
      else cv.px f i j }

/-- Modelled from the spec: the copy loop of `positionAllModules` — the
block copies of all modules `0, …, nModules-1` in module order (spec §4.2). -/
def copyAll {α : Type} (g : Geometry) (src : Modules α) (cv : Frames α) : Frames α :=
  (List.range g.nModules).foldl (fun acc m => writeBlock g src m acc) cv

/-- Modelled from the spec: the per-family border-pixel predicate of §4.4 in
module-local coordinates `(u, v)`.  Cell-edge variant: first and last pixel
row of every vertical asic band and first and last pixel column of every
horizontal asic band.  Whole-module-edge variant: only the topmost and
bottommost pixel rows of the module. -/
def isBorderPx (fam : DetectorFamily) (u v : Nat) : Bool :=
  if fam.cellEdge then
    (u % fam.asicShape.1 == 0) || (u % fam.asicShape.1 == fam.asicShape.1 - 1) ||
    (v % fam.asicShape.2 == 0) || (v % fam.asicShape.2 == fam.asicShape.2 - 1)
  else
    (u == 0) || (u == fam.moduleShape.1 - 1)

/-- Modelled from the spec: the mask pass of `positionAllModules` with
`ignoreTileEdge` set (spec §4.2): after all copies, overwrite every border
pixel (in the module the pixel belongs to) with the sentinel `nanv`. -/
def maskCanvas {α : Type} (g : Geometry) (nanv : α) (cv : Frames α) : Frames α :=
  { cv with px := fun f i j =>
      if isBorderPx g.family (i % g.mh) (j % g.mw) then nanv else cv.px f i j }

/-- The four shape-validation checks of `positionAllModules` (spec §4.2):
frame counts equal, module count `rows*cols`, per-module shape
`moduleShape`, canvas shape `assembledShape`. -/
def positionValid {α : Type} (g : Geometry) (src : Modules α) (dst : Frames α) : Bool :=
  (src.np == dst.np) && (src.nm == g.nModules) &&
  (src.mh == g.mh) && (src.mw == g.mw) &&
  (dst.h == g.rows * g.mh) && (dst.w == g.cols * g.mw)

/-- Modelled from the spec: `positionAllModules` on the canonical 4-D source
and a 3-D canvas (spec §4.2): validate-then-copy.  Each of the four shape
checks is performed before any pixel is produced; on success the result is
the copy of all module blocks, followed by the border mask pass when
`ignoreTileEdge` is set. -/
def positionAllModules {α : Type} (g : Geometry) (nanv : α) (src : Modules α)
    (dst : Frames α) (ignoreTileEdge : Bool) : Except FoamError (Frames α) :=
  if src.np ≠ dst.np then .error (.invalidArgument "pulse numbers differ")
  else if src.nm ≠ g.nModules then .error (.invalidArgument "wrong module number")
  else if src.mh ≠ g.mh ∨ src.mw ≠ g.mw then .error (.invalidArgument "wrong module shape")
  else if dst.h ≠ g.rows * g.mh ∨ dst.w ≠ g.cols * g.mw then
    .error (.invalidArgument "wrong assembled shape")
  else
    let copied := copyAll g src dst
    .ok (if ignoreTileEdge then maskCanvas g nanv copied else copied)

/-- Modelled from the spec: the inner copy of `dismantleAllModules` for one
module (spec §4.3): read module `m`'s sub-rectangle of the canvas back into
element `m` of the destination; other elements and out-of-module pixels
keep their previous values. -/
def readBlock {α : Type} (g : Geometry) (src : Frames α) (m : Nat)
    (dst : Modules α) : Modules α :=
  { dst with px := fun f m' u v =>
      if m' = m ∧ u < g.mh ∧ v < g.mw then
        src.px f ((m / g.cols) * g.mh + u) ((m % g.cols) * g.mw + v)
      else dst.px f m' u v }

/-- Modelled from the spec: the extraction loop of `dismantleAllModules`. -/
def extractAll {α : Type} (g : Geometry) (src : Frames α) (dst : Modules α) : Modules α :=
  (List.range g.nModules).foldl (fun acc m => readBlock g src m acc) dst

/-- The five shape-validation checks of `dismantleAllModules` (spec §4.3),
mirroring `positionValid`: frame counts equal, canvas height and width equal
`assembledShape`, destination module count `rows*cols`, destination
per-module shape `moduleShape`. -/
def dismantleValid {α : Type} (g : Geometry) (src : Frames α) (dst : Modules α) : Bool :=
  (src.np == dst.np) && (src.h == g.rows * g.mh) && (src.w == g.cols * g.mw) &&
  (dst.nm == g.nModules) && (dst.mh == g.mh) && (dst.mw == g.mw)

/-- Modelled from the spec: `dismantleAllModules` on a 3-D canvas and the
canonical 4-D destination (spec §4.3): validate-then-copy, no masking. -/
def dismantleAllModules {α : Type} (g : Geometry) (src : Frames α)
    (dst : Modules α) : Except FoamError (Modules α) :=
  if src.np ≠ dst.np then .error (.invalidArgument "pulse numbers differ")
  else if src.h ≠ g.rows * g.mh ∨ src.w ≠ g.cols * g.mw then
    .error (.invalidArgument "wrong assembled shape")
  else if dst.nm ≠ g.nModules then .error (.invalidArgument "wrong module number")
  else if dst.mh ≠ g.mh ∨ dst.mw ≠ g.mw then .error (.invalidArgument "wrong module shape")
  else .ok (extractAll g src dst)

/-- View one frame of a 3-D array as a 2-D image. -/
def Frames.slice {α : Type} (fr : Frames α) (f : Nat) : Image α :=
  { h := fr.h, w := fr.w, px := fr.px f }

/-- Modelled from the spec: the single-frame overload of `positionAllModules`
(3-D source `module × module-row × module-column`, 2-D canvas): the input
shape adapter of spec §9, prefixing an implicit frame axis of length 1 and
running the canonical operation. -/
def positionAllModulesSingle {α : Type} (g : Geometry) (nanv : α) (src : Frames α)
    (dst : Image α) (ignoreTileEdge : Bool) : Except FoamError (Image α) :=
  (positionAllModules g nanv
      { np := 1, nm := src.np, mh := src.h, mw := src.w, px := fun _ => src.px }
      { np := 1, h := dst.h, w := dst.w, px := fun _ => dst.px }
      ignoreTileEdge).map
    (fun out => { h := dst.h, w := dst.w, px := out.px 0 })

/-- Modelled from the spec: the per-module-collection overload of
`positionAllModules` (a vector of 3-D tensors, one `frame × row × column`
array per module; `IsModulesVector` in `f_pyconfig.hpp`).  Each element must
carry the frame count of the destination and the family's module shape;
the collection is then normalized to the canonical 4-D view (spec §9). -/
def positionAllModulesVec {α : Type} [Inhabited α] (g : Geometry) (nanv : α)
    (l : List (Frames α)) (dst : Frames α) (ignoreTileEdge : Bool) :
    Except FoamError (Frames α) :=
  if l.all (fun fr => fr.np == dst.np && fr.h == g.mh && fr.w == g.mw) then
    positionAllModules g nanv
      { np := dst.np, nm := l.length, mh := g.mh, mw := g.mw,
        px := fun f m u v => (l.getD m default).px f u v }
      dst ignoreTileEdge
  else .error (.invalidArgument "wrong module shape")

/-- Modelled from the spec: the single-frame per-module-collection overload of
`positionAllModules` (a vector of 2-D tensors, one per module, and a 2-D
canvas), as exercised by `testPositionAllModulesSingleVector`. -/
def positionAllModulesVecSingle {α : Type} [Inhabited α] (g : Geometry) (nanv : α)
    (l : List (Image α)) (dst : Image α) (ignoreTileEdge : Bool) :
    Except FoamError (Image α) :=
  if l.all (fun im => im.h == g.mh && im.w == g.mw) then
    positionAllModulesSingle g nanv
      { np := l.length, h := g.mh, w := g.mw,
        px := fun m u v => (l.getD m default).px u v }
      dst ignoreTileEdge
  else .error (.invalidArgument "wrong module shape")

/-- Modelled from the spec: the single-frame overload of
`dismantleAllModules` (2-D canvas, 3-D destination `module × row × column`). -/
def dismantleAllModulesSingle {α : Type} (g : Geometry) (src : Image α)
    (dst : Frames α) : Except FoamError (Frames α) :=
  (dismantleAllModules g
      { np := 1, h := src.h, w := src.w, px := fun _ => src.px }
      { np := 1, nm := dst.np, mh := dst.h, mw := dst.w, px := fun _ => dst.px }).map
    (fun out => { np := dst.np, h := dst.h, w := dst.w, px := out.px 0 })

/-- Modelled from the spec: `dismantleAllModules` into a per-module
collection of 3-D tensors (one `frame × row × column` array per module). -/
def dismantleAllModulesVec {α : Type} [Inhabited α] (g : Geometry) (src : Frames α)
    (dst : List (Frames α)) : Except FoamError (List (Frames α)) :=
  if dst.all (fun fr => fr.np == src.np && fr.h == g.mh && fr.w == g.mw) then
    match dismantleAllModules g src
        { np := src.np, nm := dst.length, mh := g.mh, mw := g.mw,
          px := fun f m u v => (dst.getD m default).px f u v } with
    | .ok out => .ok ((List.range dst.length).map
        (fun m => { np := src.np, h := g.mh, w := g.mw, px := fun f u v => out.px f m u v }))
    | .error e => .error e
  else .error (.invalidArgument "wrong module shape")

/-- Modelled from the spec: single-frame `dismantleAllModules` into a
collection of 2-D module images. -/
def dismantleAllModulesVecSingle {α : Type} [Inhabited α] (g : Geometry) (src : Image α)
    (dst : List (Image α)) : Except FoamError (List (Image α)) :=
  if dst.all (fun im => im.h == g.mh && im.w == g.mw) then
    match dismantleAllModulesSingle g src
        { np := dst.length, h := g.mh, w := g.mw,
          px := fun m u v => (dst.getD m default).px u v } with
    | .ok out => .ok ((List.range dst.length).map
        (fun m => { h := g.mh, w := g.mw, px := fun u v => out.px m u v }))
    | .error e => .error e
  else .error (.invalidArgument "wrong module shape")

/-- The pure masking transform of §4.4: sentinel at every border pixel,
original value elsewhere. -/
def maskModulePx {α : Type} (fam : DetectorFamily) (nanv : α)
    (px : Nat → Nat → α) : Nat → Nat → α :=
  fun u v => if isBorderPx fam u v then nanv else px u v

/-- Modelled from the spec: `Detector::maskModule` on a single 2-D module
(spec §4.4): the input must have exactly `moduleShape`, otherwise the shape
error is raised; on success every border pixel of the family's variant is
overwritten with the sentinel and every other pixel is unchanged. -/
def maskModule {α : Type} (fam : DetectorFamily) (nanv : α) (img : Image α) :
    Except FoamError (Image α) :=
  if img.h = fam.moduleShape.1 ∧ img.w = fam.moduleShape.2 then
    .ok { img with px := maskModulePx fam nanv img.px }
  else .error (.invalidArgument "wrong module shape")

/-- Modelled from the spec: `Detector::maskModule` on a batch of modules
(3-D input, leading frame/batch axis): each element of the leading axis must
have exactly `moduleShape`; the mask is applied to every element. -/
def maskModuleBatch {α : Type} (fam : DetectorFamily) (nanv : α) (fr : Frames α) :
    Except FoamError (Frames α) :=
  if fr.h = fam.moduleShape.1 ∧ fr.w = fam.moduleShape.2 then
    .ok { fr with px := fun f => maskModulePx fam nanv (fr.px f) }
  else .error (.invalidArgument "wrong module shape")

/-- The in-place view of `positionAllModules`: the destination canvas after
the call — the assembled result on success, the untouched original
destination when validation failed (validate-then-copy, spec §4.2/§7). -/
def positionAllModulesRun {α : Type} (g : Geometry) (nanv : α) (src : Modules α)
    (dst : Frames α) (ignoreTileEdge : Bool) : Frames α :=
  match positionAllModules g nanv src dst ignoreTileEdge with
  | .ok out => out
  | .error _ => dst

/-- The in-place view of `dismantleAllModules`: destination after the call. -/
def dismantleAllModulesRun {α : Type} (g : Geometry) (src : Frames α)
    (dst : Modules α) : Modules α :=
  match dismantleAllModules g src dst with
  | .ok out => out
  | .error _ => dst

/-- The in-place view of `maskModule`: module after the call. -/
def maskModuleRun {α : Type} (fam : DetectorFamily) (nanv : α) (img : Image α) : Image α :=
  match maskModule fam nanv img with
  | .ok out => out
  | .error _ => img

/-- The in-place view of batched `maskModule`: batch after the call. -/
def maskModuleBatchRun {α : Type} (fam : DetectorFamily) (nanv : α) (fr : Frames α) : Frames α :=
  match maskModuleBatch fam nanv fr with
  | .ok out => out
  | .error _ => fr

/-! ## Concrete sample data (the test fixture's 3×2 grid and 2-pulse batches) -/

/-- The test fixture's JungFrau geometry: 3 rows × 2 columns. -/
def gJF : Geometry := { family := JungFrau, rows := 3, cols := 2 }

/-- The test fixture's ePix100 geometry: 3 rows × 2 columns. -/
def gEP : Geometry := { family := EPix100, rows := 3, cols := 2 }

/-- A valid 2-pulse all-ones JungFrau module batch (6 modules of 512×1024). -/
def onesModulesJF : Modules ℚ :=
  { np := 2, nm := 6, mh := 512, mw := 1024, px := fun _ _ _ _ => 1 }

/-- A zero-initialized 2-pulse JungFrau canvas (1536×2048). -/
def zeroCanvasJF : Frames ℚ :=
  { np := 2, h := 1536, w := 2048, px := fun _ _ _ => 0 }

/-- A zero-initialized JungFrau module-batch destination of the source's shape. -/
def zeroModulesJF : Modules ℚ :=
  { np := 2, nm := 6, mh := 512, mw := 1024, px := fun _ _ _ _ => 0 }

/-- An invalid JungFrau module batch: 5 modules instead of `3*2 = 6`. -/
def badModulesJF : Modules ℚ :=
  { np := 2, nm := 5, mh := 512, mw := 1024, px := fun _ _ _ _ => 1 }

/-- A wrongly shaped single module (3×4, the tests' `src_w`). -/
def badModuleImg : Image ℚ := { h := 3, w := 4, px := fun _ _ => 1 }

/-- An all-ones ePix100 module (708×768). -/
def onesModuleEP : Image ℚ := { h := 708, w := 768, px := fun _ _ => 1 }

/-- An all-ones 2-element batch of ePix100 modules. -/
def onesBatchEP : Frames ℚ := { np := 2, h := 708, w := 768, px := fun _ _ _ => 1 }

/-! ## Core lemmas about the copy and extraction loops -/

/-- If the half-open block `[a*n, a*n+n)` contains `b*n + u` with `u < n`,
the block indices agree: `a = b`. -/
theorem grid_slot_eq {a b u n : Nat} (hu : u < n)
    (h1 : a * n ≤ b * n + u) (h2 : b * n + u < a * n + n) : a = b := by
  have hb : b < a + 1 := by
    have h : b * n < (a + 1) * n := by
      calc b * n ≤ b * n + u := Nat.le_add_right _ _
        _ < a * n + n := h2
        _ = (a + 1) * n := by ring
    exact lt_of_mul_lt_mul_right h (Nat.zero_le n)
  have ha : a < b + 1 := by
    have h : a * n < (b + 1) * n := by
      calc a * n ≤ b * n + u := h1
        _ < b * n + n := by
            exact Nat.add_lt_add_left hu _
        _ = (b + 1) * n := by ring
    exact lt_of_mul_lt_mul_right h (Nat.zero_le n)
  omega

/-- `writeBlock` for module `m'`, read at a pixel of module `m`'s block:
it returns the source pixel when `m' = m` and the previous canvas value
otherwise (distinct modules occupy disjoint canvas blocks). -/
theorem writeBlock_px {α : Type} (g : Geometry) (src : Modules α) (m' m u v f : Nat)
    (cv : Frames α) (hu : u < g.mh) (hv : v < g.mw) :
    (writeBlock g src m' cv).px f ((m / g.cols) * g.mh + u) ((m % g.cols) * g.mw + v) =
      if m' = m then src.px f m u v
      else cv.px f ((m / g.cols) * g.mh + u) ((m % g.cols) * g.mw + v) := by
  unfold writeBlock
  dsimp only
  by_cases hmm : m' = m
  · subst hmm
    rw [if_pos rfl, if_pos]
    · rw [Nat.add_sub_cancel_left, Nat.add_sub_cancel_left]
    · exact ⟨Nat.le_add_right _ _, Nat.add_lt_add_left hu _,
        Nat.le_add_right _ _, Nat.add_lt_add_left hv _⟩
  · rw [if_neg hmm, if_neg]
    intro hcond
    obtain ⟨h1, h2, h3, h4⟩ := hcond
    apply hmm
    have hr : m' / g.cols = m / g.cols := grid_slot_eq hu h1 h2
    have hc : m' % g.cols = m % g.cols := grid_slot_eq hv h3 h4
    calc m' = g.cols * (m' / g.cols) + m' % g.cols := (Nat.div_add_mod _ _).symm
      _ = g.cols * (m / g.cols) + m % g.cols := by rw [hr, hc]
      _ = m := Nat.div_add_mod _ _

/-- Folding the block copies over a list of module indices not containing
`m` leaves every pixel of module `m`'s block unchanged. -/
theorem foldl_writeBlock_not_mem {α : Type} (g : Geometry) (src : Modules α)
    (l : List Nat) (m u v f : Nat) (cv : Frames α)
    (hu : u < g.mh) (hv : v < g.mw) (hm : m ∉ l) :
    (l.foldl (fun acc m' => writeBlock g src m' acc) cv).px f
        ((m / g.cols) * g.mh + u) ((m % g.cols) * g.mw + v) =
      cv.px f ((m / g.cols) * g.mh + u) ((m % g.cols) * g.mw + v) := by
  induction l generalizing cv with
  | nil => rfl
  | cons a t ih =>
    rw [List.foldl_cons]
    rw [ih _ (fun h => hm (List.mem_cons_of_mem a h))]
    rw [writeBlock_px g src a m u v f cv hu hv]
    rw [if_neg (fun (h : a = m) => hm (h ▸ List.mem_cons_self a t))]

/-- Folding the block copies over a list of module indices containing `m`
writes exactly the source pixels of module `m` into its block. -/
theorem foldl_writeBlock_mem {α : Type} (g : Geometry) (src : Modules α)
    (l : List Nat) (m u v f : Nat) (cv : Frames α)
    (hu : u < g.mh) (hv : v < g.mw) (hm : m ∈ l) :
    (l.foldl (fun acc m' => writeBlock g src m' acc) cv).px f
        ((m / g.cols) * g.mh + u) ((m % g.cols) * g.mw + v) =
      src.px f m u v := by
  induction l generalizing cv with
  | nil => cases hm
  | cons a t ih =>
    rw [List.foldl_cons]
    by_cases ht : m ∈ t
    · exact ih _ ht
    · have ha : a = m := by
        rcases List.mem_cons.mp hm with h | h
        · exact h.symm
        · exact absurd h ht
      rw [foldl_writeBlock_not_mem g src t m u v f _ hu hv ht]
      rw [writeBlock_px g src a m u v f cv hu hv, if_pos ha]

/-- The copy loop places each module's pixels at its grid block:
reading the assembled canvas at the block of module `m < rows*cols`,
offset `(u, v)`, yields the source pixel `(f, m, u, v)`. -/
theorem copyAll_px_block {α : Type} (g : Geometry) (src : Modules α)
    (cv : Frames α) (m u v f : Nat)
    (hm : m < g.nModules) (hu : u < g.mh) (hv : v < g.mw) :
    (copyAll g src cv).px f ((m / g.cols) * g.mh + u) ((m % g.cols) * g.mw + v) =
      src.px f m u v :=
  foldl_writeBlock_mem g src _ m u v f cv hu hv (List.mem_range.mpr hm)

/-- The copy loop read in canvas coordinates: every in-range canvas pixel
`(i, j)` holds the source pixel of module `(i/mh)*cols + j/mw` at offset
`(i % mh, j % mw)`. -/
theorem copyAll_px_canvas {α : Type} (g : Geometry) (src : Modules α)
    (cv : Frames α) (i j f : Nat)
    (hmh : 0 < g.mh) (hmw : 0 < g.mw)
    (hi : i < g.rows * g.mh) (hj : j < g.cols * g.mw) :
    (copyAll g src cv).px f i j =
      src.px f ((i / g.mh) * g.cols + j / g.mw) (i % g.mh) (j % g.mw) := by
  have hjdiv : j / g.mw < g.cols := (Nat.div_lt_iff_lt_mul hmw).mpr hj
  have hidiv : i / g.mh < g.rows := (Nat.div_lt_iff_lt_mul hmh).mpr hi
  have hmexp : (i / g.mh) * g.cols + j / g.mw = j / g.mw + g.cols * (i / g.mh) := by ring
  have hmdiv : ((i / g.mh) * g.cols + j / g.mw) / g.cols = i / g.mh := by
    have hcols : 0 < g.cols := lt_of_le_of_lt (Nat.zero_le _) hjdiv
    rw [hmexp, Nat.add_mul_div_left _ _ hcols, Nat.div_eq_of_lt hjdiv, Nat.zero_add]
  have hmmod : ((i / g.mh) * g.cols + j / g.mw) % g.cols = j / g.mw := by
    rw [hmexp, Nat.add_mul_mod_self_left, Nat.mod_eq_of_lt hjdiv]
  have hmlt : (i / g.mh) * g.cols + j / g.mw < g.nModules := by
    have h1 : (i / g.mh) * g.cols + j / g.mw < (i / g.mh + 1) * g.cols := by
      calc (i / g.mh) * g.cols + j / g.mw
          < (i / g.mh) * g.cols + g.cols := Nat.add_lt_add_left hjdiv _
        _ = (i / g.mh + 1) * g.cols := by ring
    have h2 : (i / g.mh + 1) * g.cols ≤ g.rows * g.cols :=
      Nat.mul_le_mul_right _ hidiv
    exact Nat.lt_of_lt_of_le h1 h2
  have hi' : (((i / g.mh) * g.cols + j / g.mw) / g.cols) * g.mh + i % g.mh = i := by
    rw [hmdiv]
    calc (i / g.mh) * g.mh + i % g.mh = g.mh * (i / g.mh) + i % g.mh := by ring
      _ = i := Nat.div_add_mod i g.mh
  have hj' : (((i / g.mh) * g.cols + j / g.mw) % g.cols) * g.mw + j % g.mw = j := by
    rw [hmmod]
    calc (j / g.mw) * g.mw + j % g.mw = g.mw * (j / g.mw) + j % g.mw := by ring
      _ = j := Nat.div_add_mod j g.mw
  calc (copyAll g src cv).px f i j
      = (copyAll g src cv).px f
          ((((i / g.mh) * g.cols + j / g.mw) / g.cols) * g.mh + i % g.mh)
          ((((i / g.mh) * g.cols + j / g.mw) % g.cols) * g.mw + j % g.mw) := by
        rw [hi', hj']
    _ = src.px f ((i / g.mh) * g.cols + j / g.mw) (i % g.mh) (j % g.mw) :=
        copyAll_px_block g src cv _ _ _ f hmlt (Nat.mod_lt _ hmh) (Nat.mod_lt _ hmw)

/-- `readBlock` for module `m'`, read at destination index `(f, m, u, v)`
with in-range `(u, v)`: the canvas pixel of module `m'`'s block when
`m = m'`, the previous destination value otherwise. -/
theorem readBlock_px {α : Type} (g : Geometry) (src : Frames α) (m' m u v f : Nat)
    (dst : Modules α) (hu : u < g.mh) (hv : v < g.mw) :
    (readBlock g src m' dst).px f m u v =
      if m = m' then
        src.px f ((m' / g.cols) * g.mh + u) ((m' % g.cols) * g.mw + v)
      else dst.px f m u v := by
  unfold readBlock
  dsimp only
  by_cases h : m = m'
  · rw [if_pos ⟨h, hu, hv⟩, if_pos h]
  · rw [if_neg (fun hc => h hc.1), if_neg h]

/-- Folding the block reads over a list of module indices not containing
`m` leaves destination module `m` unchanged. -/
theorem foldl_readBlock_not_mem {α : Type} (g : Geometry) (src : Frames α)
    (l : List Nat) (m u v f : Nat) (dst : Modules α)
    (hu : u < g.mh) (hv : v < g.mw) (hm : m ∉ l) :
    (l.foldl (fun acc m' => readBlock g src m' acc) dst).px f m u v =
      dst.px f m u v := by
  induction l generalizing dst with
  | nil => rfl
  | cons a t ih =>
    rw [List.foldl_cons]
    rw [ih _ (fun h => hm (List.mem_cons_of_mem a h))]
    rw [readBlock_px g src a m u v f dst hu hv]
    rw [if_neg (fun (h : m = a) => hm (by rw [h]; exact List.mem_cons_self a t))]

/-- Folding the block reads over a list containing `m` fills destination
module `m` with the pixels of module `m`'s canvas block. -/
theorem foldl_readBlock_mem {α : Type} (g : Geometry) (src : Frames α)
    (l : List Nat) (m u v f : Nat) (dst : Modules α)
    (hu : u < g.mh) (hv : v < g.mw) (hm : m ∈ l) :
    (l.foldl (fun acc m' => readBlock g src m' acc) dst).px f m u v =
      src.px f ((m / g.cols) * g.mh + u) ((m % g.cols) * g.mw + v) := by
  induction l generalizing dst with
  | nil => cases hm
  | cons a t ih =>
    rw [List.foldl_cons]
    by_cases ht : m ∈ t
    · exact ih _ ht
    · have ha : a = m := by
        rcases List.mem_cons.mp hm with h | h
        · exact h.symm
        · exact absurd h ht
      rw [foldl_readBlock_not_mem g src t m u v f _ hu hv ht]
      rw [readBlock_px g src a m u v f dst hu hv, if_pos ha.symm, ha]

/-- The extraction loop reads each destination module's pixels from its
canvas block. -/
theorem extractAll_px {α : Type} (g : Geometry) (src : Frames α)
    (dst : Modules α) (m u v f : Nat)
    (hm : m < g.nModules) (hu : u < g.mh) (hv : v < g.mw) :
    (extractAll g src dst).px f m u v =
      src.px f ((m / g.cols) * g.mh + u) ((m % g.cols) * g.mw + v) :=
  foldl_readBlock_mem g src _ m u v f dst hu hv (List.mem_range.mpr hm)

/-! ## Success and failure characterizations of the operations -/

/-- The copy loop never changes the canvas's shape fields. -/
theorem foldl_writeBlock_shape {α : Type} (g : Geometry) (src : Modules α)
    (l : List Nat) (cv : Frames α) :
    (l.foldl (fun acc m' => writeBlock g src m' acc) cv).np = cv.np ∧
    (l.foldl (fun acc m' => writeBlock g src m' acc) cv).h = cv.h ∧
    (l.foldl (fun acc m' => writeBlock g src m' acc) cv).w = cv.w := by
  induction l generalizing cv with
  | nil => exact ⟨rfl, rfl, rfl⟩
  | cons a t ih =>
    rw [List.foldl_cons]
    exact ih (writeBlock g src a cv)

/-- `copyAll` preserves the canvas shape. -/
theorem copyAll_shape {α : Type} (g : Geometry) (src : Modules α) (cv : Frames α) :
    (copyAll g src cv).np = cv.np ∧ (copyAll g src cv).h = cv.h ∧
    (copyAll g src cv).w = cv.w :=
  foldl_writeBlock_shape g src _ cv

/-- The extraction loop never changes the destination's shape fields. -/
theorem foldl_readBlock_shape {α : Type} (g : Geometry) (src : Frames α)
    (l : List Nat) (dst : Modules α) :
    (l.foldl (fun acc m' => readBlock g src m' acc) dst).np = dst.np ∧
    (l.foldl (fun acc m' => readBlock g src m' acc) dst).nm = dst.nm ∧
    (l.foldl (fun acc m' => readBlock g src m' acc) dst).mh = dst.mh ∧
    (l.foldl (fun acc m' => readBlock g src m' acc) dst).mw = dst.mw := by
  induction l generalizing dst with
  | nil => exact ⟨rfl, rfl, rfl, rfl⟩
  | cons a t ih =>
    rw [List.foldl_cons]
    exact ih (readBlock g src a dst)

/-- `positionAllModules` succeeds exactly when the four shape checks pass:
its result is an error if and only if `positionValid` is false. -/
theorem positionAllModules_isErr {α : Type} (g : Geometry) (nanv : α)
    (src : Modules α) (dst : Frames α) (ig : Bool) :
    isErr (positionAllModules g nanv src dst ig) = !(positionValid g src dst) := by
  unfold positionAllModules positionValid
  by_cases h1 : src.np = dst.np <;> by_cases h2 : src.nm = g.nModules <;>
    by_cases h3 : src.mh = g.mh <;> by_cases h4 : src.mw = g.mw <;>
    by_cases h5 : dst.h = g.rows * g.mh <;> by_cases h6 : dst.w = g.cols * g.mw <;>
    simp [h1, h2, h3, h4, h5, h6, isErr]

/-- `dismantleAllModules` succeeds exactly when the five mirrored shape
checks pass. -/
theorem dismantleAllModules_isErr {α : Type} (g : Geometry)
    (src : Frames α) (dst : Modules α) :
    isErr (dismantleAllModules g src dst) = !(dismantleValid g src dst) := by
  unfold dismantleAllModules dismantleValid
  by_cases h1 : src.np = dst.np <;> by_cases h2 : src.h = g.rows * g.mh <;>
    by_cases h3 : src.w = g.cols * g.mw <;> by_cases h4 : dst.nm = g.nModules <;>
    by_cases h5 : dst.mh = g.mh <;> by_cases h6 : dst.mw = g.mw <;>
    simp [h1, h2, h3, h4, h5, h6, isErr]

/-- Success form of `positionAllModules` under valid shapes. -/
theorem positionAllModules_ok {α : Type} (g : Geometry) (nanv : α)
    (src : Modules α) (dst : Frames α) (ig : Bool)
    (h1 : src.np = dst.np) (h2 : src.nm = g.nModules)
    (h3 : src.mh = g.mh) (h4 : src.mw = g.mw)
    (h5 : dst.h = g.rows * g.mh) (h6 : dst.w = g.cols * g.mw) :
    positionAllModules g nanv src dst ig =
      .ok (if ig then maskCanvas g nanv (copyAll g src dst) else copyAll g src dst) := by
  unfold positionAllModules
  simp [h1, h2, h3, h4, h5, h6]

/-- Success form of `dismantleAllModules` under valid shapes. -/
theorem dismantleAllModules_ok {α : Type} (g : Geometry)
    (src : Frames α) (dst : Modules α)
    (h1 : src.np = dst.np) (h2 : src.h = g.rows * g.mh) (h3 : src.w = g.cols * g.mw)
    (h4 : dst.nm = g.nModules) (h5 : dst.mh = g.mh) (h6 : dst.mw = g.mw) :
    dismantleAllModules g src dst = .ok (extractAll g src dst) := by
  unfold dismantleAllModules
  simp [h1, h2, h3, h4, h5, h6]

/-- The mask pass never changes the canvas's shape fields. -/
theorem maskCanvas_shape {α : Type} (g : Geometry) (nanv : α) (cv : Frames α) :
    (maskCanvas g nanv cv).np = cv.np ∧ (maskCanvas g nanv cv).h = cv.h ∧
    (maskCanvas g nanv cv).w = cv.w :=
  ⟨rfl, rfl, rfl⟩

/-- For the whole-module-edge masking variant the border predicate holds
exactly at the topmost and bottommost module rows. -/
theorem isBorderPx_whole (fam : DetectorFamily) (h : fam.cellEdge = false) (u v : Nat) :
    isBorderPx fam u v = true ↔ (u = 0 ∨ u = fam.moduleShape.1 - 1) := by
  simp [isBorderPx, h]

/-- For the cell-edge masking variant the border predicate holds exactly at
the first and last row and column of every asic cell band. -/
theorem isBorderPx_cell (fam : DetectorFamily) (h : fam.cellEdge = true) (u v : Nat) :
    isBorderPx fam u v = true ↔
      (u % fam.asicShape.1 = 0 ∨ u % fam.asicShape.1 = fam.asicShape.1 - 1 ∨
       v % fam.asicShape.2 = 0 ∨ v % fam.asicShape.2 = fam.asicShape.2 - 1) := by
  simp [isBorderPx, h, or_assoc]

/-- The canonical module index of an in-range canvas pixel is in range. -/
theorem moduleIndex_lt (g : Geometry) (i j : Nat)
    (hmh : 0 < g.mh) (hmw : 0 < g.mw)
    (hi : i < g.rows * g.mh) (hj : j < g.cols * g.mw) :
    (i / g.mh) * g.cols + j / g.mw < g.nModules := by
  have hjdiv : j / g.mw < g.cols := (Nat.div_lt_iff_lt_mul hmw).mpr hj
  have hidiv : i / g.mh < g.rows := (Nat.div_lt_iff_lt_mul hmh).mpr hi
  have h1 : (i / g.mh) * g.cols + j / g.mw < (i / g.mh + 1) * g.cols := by
    calc (i / g.mh) * g.cols + j / g.mw
        < (i / g.mh) * g.cols + g.cols := Nat.add_lt_add_left hjdiv _
      _ = (i / g.mh + 1) * g.cols := by ring
  exact Nat.lt_of_lt_of_le h1 (Nat.mul_le_mul_right _ hidiv)

/-- An in-range `getD` access returns an element of the list. -/
theorem getD_mem_of_lt {β : Type} (l : List β) (m : Nat) (d : β)
    (h : m < l.length) : l.getD m d ∈ l := by
  rw [List.getD_eq_getElem l d h]
  exact List.getElem_mem h

/-- `getD` into the list built by mapping over `List.range`. -/
theorem getD_range_map {β : Type} (n m : Nat) (f : Nat → β) (d : β)
    (h : m < n) :
    ((List.range n).map f).getD m d = f m := by
  have hlen : m < ((List.range n).map f).length := by
    rw [List.length_map, List.length_range]
    exact h
  rw [List.getD_eq_getElem _ d hlen]
  rw [List.getElem_map]
  congr 1
  exact List.getElem_range _ _

/-! ## Claim theorems -/

/-- C2: for every valid `(rows, cols)` and any detector family, a
successfully constructed Geometry Descriptor carries exactly the requested
family and grid, and its `assembledShape` equals
`(rows * moduleShape.height, cols * moduleShape.width)`.  The descriptor is
a frozen value: no operation of the model mutates it after construction. -/
theorem assembledShape_of_construct (fam : DetectorFamily) (rows cols : Nat)
    (g : Geometry) (h : DetectorGeometry fam rows cols = .ok g) :
    g.family = fam ∧ g.rows = rows ∧ g.cols = cols ∧
    g.assembledShape = (rows * fam.moduleShape.1, cols * fam.moduleShape.2) := by
  unfold DetectorGeometry at h
  by_cases hc : cols = fam.reqCols
  · rw [if_pos hc] at h
    injection h with h
    subst h
    exact ⟨rfl, rfl, rfl, rfl⟩
  · rw [if_neg hc] at h
    cases h

/-- Witness for C2: the JungFrau descriptor on the tests' 3×2 grid. -/
theorem assembledShape_of_construct_witness :
    DetectorGeometry JungFrau 3 2 = .ok gJF ∧
    (gJF.family = JungFrau ∧ gJF.rows = 3 ∧ gJF.cols = 2 ∧
     gJF.assembledShape = (3 * JungFrau.moduleShape.1, 2 * JungFrau.moduleShape.2)) :=
  ⟨rfl, assembledShape_of_construct JungFrau 3 2 gJF rfl⟩

/-- C7: constructing a Geometry Descriptor with a column count other than
the family's required one fails with the invalid-configuration
(invalid-argument) error; being a pure function, the failed construction
has no side effect. -/
theorem construct_wrong_cols_fails (fam : DetectorFamily) (rows cols : Nat)
    (h : cols ≠ fam.reqCols) :
    DetectorGeometry fam rows cols =
      .error (.invalidArgument "invalid number of columns") := by
  unfold DetectorGeometry
  rw [if_neg h]

/-- Witness for C7: a 3-column JungFrau grid is rejected. -/
theorem construct_wrong_cols_fails_witness :
    (3 : Nat) ≠ JungFrau.reqCols ∧
    DetectorGeometry JungFrau 1 3 =
      .error (.invalidArgument "invalid number of columns") :=
  ⟨by decide, construct_wrong_cols_fails JungFrau 1 3 (by decide)⟩

/-- C10: the concrete family-specific grid constraints of the tests:
`DetectorGeometry<JungFrau>(1, 3)` and `DetectorGeometry<EPix100>(2, 4)`
both fail with the invalid-argument error, while a 3×2 grid is accepted by
both families. -/
theorem construct_concrete_grid_constraints :
    DetectorGeometry JungFrau 1 3 =
      .error (.invalidArgument "invalid number of columns") ∧
    DetectorGeometry EPix100 2 4 =
      .error (.invalidArgument "invalid number of columns") ∧
    DetectorGeometry JungFrau 3 2 = .ok gJF ∧
    DetectorGeometry EPix100 3 2 = .ok gEP :=
  ⟨rfl, rfl, rfl, rfl⟩

/-- C6: each operation raises the shape-mismatch (invalid-argument) error
exactly when one of its documented shape checks fails — the result is an
error if and only if the corresponding validation predicate
(`positionValid`: the four cases for `positionAllModules`;
`dismantleValid`: the five mirrored cases for `dismantleAllModules`) is
false; in every such case the operation returns the error value instead of
crashing. -/
theorem shape_mismatch_raises (α : Type) (g : Geometry) (nanv : α) :
    (∀ (src : Modules α) (dst : Frames α) (ig : Bool),
        isErr (positionAllModules g nanv src dst ig) = !(positionValid g src dst)) ∧
    (∀ (src : Frames α) (dst : Modules α),
        isErr (dismantleAllModules g src dst) = !(dismantleValid g src dst)) :=
  ⟨fun src dst ig => positionAllModules_isErr g nanv src dst ig,
   fun src dst => dismantleAllModules_isErr g src dst⟩

/-- C9: validation is atomic — whenever any input of `positionAllModules`,
`dismantleAllModules` or `maskModule` is invalid, the error is raised
before any write, so the destination (or in-place array) after the call is
exactly what it was before. -/
theorem validate_then_copy_atomic (α : Type) (g : Geometry) (nanv : α) :
    (∀ (src : Modules α) (dst : Frames α) (ig : Bool),
        positionValid g src dst = false →
        positionAllModulesRun g nanv src dst ig = dst) ∧
    (∀ (src : Frames α) (dst : Modules α),
        dismantleValid g src dst = false →
        dismantleAllModulesRun g src dst = dst) ∧
    (∀ img : Image α,
        ¬(img.h = g.family.moduleShape.1 ∧ img.w = g.family.moduleShape.2) →
        maskModuleRun g.family nanv img = img) ∧
    (∀ fr : Frames α,
        ¬(fr.h = g.family.moduleShape.1 ∧ fr.w = g.family.moduleShape.2) →
        maskModuleBatchRun g.family nanv fr = fr) := by
  refine ⟨?_, ?_, ?_, ?_⟩
  · intro src dst ig h
    unfold positionAllModulesRun
    cases hres : positionAllModules g nanv src dst ig with
    | error e => rfl
    | ok out =>
      exfalso
      have he := positionAllModules_isErr g nanv src dst ig
      rw [hres, h] at he
      simp [isErr] at he
  · intro src dst h
    unfold dismantleAllModulesRun
    cases hres : dismantleAllModules g src dst with
    | error e => rfl
    | ok out =>
      exfalso
      have he := dismantleAllModules_isErr g src dst
      rw [hres, h] at he
      simp [isErr] at he
  · intro img h
    have hm : maskModule g.family nanv img =
        .error (.invalidArgument "wrong module shape") := by
      unfold maskModule
      rw [if_neg h]
    unfold maskModuleRun
    rw [hm]
  · intro fr h
    have hm : maskModuleBatch g.family nanv fr =
        .error (.invalidArgument "wrong module shape") := by
      unfold maskModuleBatch
      rw [if_neg h]
    unfold maskModuleBatchRun
    rw [hm]

/-- Witness for C9: a 5-module source for the 3×2 JungFrau grid fails
validation and the canvas is returned untouched. -/
theorem validate_then_copy_atomic_witness :
    positionValid gJF badModulesJF zeroCanvasJF = false ∧
    positionAllModulesRun gJF (0 : ℚ) badModulesJF zeroCanvasJF false = zeroCanvasJF :=
  ⟨by decide,
   (validate_then_copy_atomic ℚ gJF 0).1 badModulesJF zeroCanvasJF false (by decide)⟩

/-- C5: `maskModule` fails with the shape error whenever the input (or, for
batched input, the per-element shape) is not exactly `moduleShape`; on a
correctly shaped module it leaves the shape intact and sets exactly the
family's documented border pixels to the sentinel — whole-module-edge
variant: the topmost and bottommost rows only; cell-edge variant: the
first and last row and column of every asic cell band — while every other
pixel keeps its original value. -/
theorem maskModule_spec (α : Type) (fam : DetectorFamily) (nanv : α) :
    (∀ img : Image α,
        ¬(img.h = fam.moduleShape.1 ∧ img.w = fam.moduleShape.2) →
        maskModule fam nanv img = .error (.invalidArgument "wrong module shape")) ∧
    (∀ fr : Frames α,
        ¬(fr.h = fam.moduleShape.1 ∧ fr.w = fam.moduleShape.2) →
        maskModuleBatch fam nanv fr = .error (.invalidArgument "wrong module shape")) ∧
    (∀ img : Image α, img.h = fam.moduleShape.1 → img.w = fam.moduleShape.2 →
      ∃ out, maskModule fam nanv img = .ok out ∧ out.h = img.h ∧ out.w = img.w ∧
        (fam.cellEdge = false →
          ∀ u v, out.px u v =
            if u = 0 ∨ u = fam.moduleShape.1 - 1 then nanv else img.px u v) ∧
        (fam.cellEdge = true →
          ∀ u v, out.px u v =
            if u % fam.asicShape.1 = 0 ∨ u % fam.asicShape.1 = fam.asicShape.1 - 1 ∨
               v % fam.asicShape.2 = 0 ∨ v % fam.asicShape.2 = fam.asicShape.2 - 1
            then nanv else img.px u v)) := by
  refine ⟨?_, ?_, ?_⟩
  · intro img h
    unfold maskModule
    rw [if_neg h]
  · intro fr h
    unfold maskModuleBatch
    rw [if_neg h]
  · intro img h1 h2
    refine ⟨{ img with px := maskModulePx fam nanv img.px }, ?_, rfl, rfl, ?_, ?_⟩
    · unfold maskModule
      rw [if_pos ⟨h1, h2⟩]
    · intro hcell u v
      unfold maskModulePx
      dsimp only
      by_cases hb : u = 0 ∨ u = fam.moduleShape.1 - 1
      · rw [if_pos ((isBorderPx_whole fam hcell u v).mpr hb), if_pos hb]
      · rw [if_neg (fun hh => hb ((isBorderPx_whole fam hcell u v).mp hh)), if_neg hb]
    · intro hcell u v
      unfold maskModulePx
      dsimp only
      by_cases hb : u % fam.asicShape.1 = 0 ∨ u % fam.asicShape.1 = fam.asicShape.1 - 1 ∨
          v % fam.asicShape.2 = 0 ∨ v % fam.asicShape.2 = fam.asicShape.2 - 1
      · rw [if_pos ((isBorderPx_cell fam hcell u v).mpr hb), if_pos hb]
      · rw [if_neg (fun hh => hb ((isBorderPx_cell fam hcell u v).mp hh)), if_neg hb]

/-- Witness for C5: the wrongly shaped 3×4 module is rejected for ePix100,
and a correct 708×768 ePix100 module is masked. -/
theorem maskModule_spec_witness :
    (¬(badModuleImg.h = EPix100.moduleShape.1 ∧ badModuleImg.w = EPix100.moduleShape.2) ∧
     maskModule EPix100 (0 : ℚ) badModuleImg =
       .error (.invalidArgument "wrong module shape")) ∧
    (onesModuleEP.h = EPix100.moduleShape.1 ∧ onesModuleEP.w = EPix100.moduleShape.2 ∧
     ∃ out, maskModule EPix100 (0 : ℚ) onesModuleEP = .ok out ∧
       out.h = onesModuleEP.h ∧ out.w = onesModuleEP.w ∧
       (EPix100.cellEdge = false →
         ∀ u v, out.px u v =
           if u = 0 ∨ u = EPix100.moduleShape.1 - 1 then (0 : ℚ)
           else onesModuleEP.px u v) ∧
       (EPix100.cellEdge = true →
         ∀ u v, out.px u v =
           if u % EPix100.asicShape.1 = 0 ∨
              u % EPix100.asicShape.1 = EPix100.asicShape.1 - 1 ∨
              v % EPix100.asicShape.2 = 0 ∨
              v % EPix100.asicShape.2 = EPix100.asicShape.2 - 1
           then (0 : ℚ) else onesModuleEP.px u v)) :=
  ⟨⟨by decide, (maskModule_spec ℚ EPix100 0).1 badModuleImg (by decide)⟩,
   ⟨by decide, by decide,
    (maskModule_spec ℚ EPix100 0).2.2 onesModuleEP (by decide) (by decide)⟩⟩

/-- C8: applying `maskModule` to a batch of correctly shaped modules gives,
frame by frame, exactly the result of applying `maskModule` to each module
individually. -/
theorem maskModule_batch_eq_single (α : Type) (fam : DetectorFamily) (nanv : α)
    (fr : Frames α) (h1 : fr.h = fam.moduleShape.1) (h2 : fr.w = fam.moduleShape.2) :
    ∃ out, maskModuleBatch fam nanv fr = .ok out ∧ out.np = fr.np ∧
      ∀ f : Nat, maskModule fam nanv (fr.slice f) = .ok (out.slice f) := by
  refine ⟨{ fr with px := fun f => maskModulePx fam nanv (fr.px f) }, ?_, rfl, ?_⟩
  · unfold maskModuleBatch
    rw [if_pos ⟨h1, h2⟩]
  · intro f
    unfold maskModule
    rw [if_pos ⟨h1, h2⟩]
    rfl

/-- Witness for C8: the 2-element all-ones ePix100 batch. -/
theorem maskModule_batch_eq_single_witness :
    onesBatchEP.h = EPix100.moduleShape.1 ∧ onesBatchEP.w = EPix100.moduleShape.2 ∧
    (∃ out, maskModuleBatch EPix100 (0 : ℚ) onesBatchEP = .ok out ∧
      out.np = onesBatchEP.np ∧
      ∀ f : Nat, maskModule EPix100 (0 : ℚ) (onesBatchEP.slice f) = .ok (out.slice f)) :=
  ⟨by decide, by decide,
   maskModule_batch_eq_single ℚ EPix100 0 onesBatchEP (by decide) (by decide)⟩

/-- C3: with `ignoreTileEdge = false`, `positionAllModules` copies module
`m` into the canvas block at grid position `(m / cols, m % cols)` for every
frame (clause 1), and a source whose module pixels all equal a constant
yields a canvas entirely filled with that constant, for the canonical 4-D
form, the single-frame 3-D form, and the per-module-collection form
(clauses 2–4). -/
theorem position_copies_blocks (α : Type) [Inhabited α] (g : Geometry) (nanv : α)
    (hmh : 0 < g.mh) (hmw : 0 < g.mw) :
    (∀ (src : Modules α) (dst : Frames α),
      src.np = dst.np → src.nm = g.nModules → src.mh = g.mh → src.mw = g.mw →
      dst.h = g.rows * g.mh → dst.w = g.cols * g.mw →
      ∃ out, positionAllModules g nanv src dst false = .ok out ∧
        out.np = dst.np ∧ out.h = dst.h ∧ out.w = dst.w ∧
        ∀ f m u v, m < g.nModules → u < g.mh → v < g.mw →
          out.px f ((m / g.cols) * g.mh + u) ((m % g.cols) * g.mw + v) =
            src.px f m u v) ∧
    (∀ (a : α) (src : Modules α) (dst : Frames α),
      src.np = dst.np → src.nm = g.nModules → src.mh = g.mh → src.mw = g.mw →
      dst.h = g.rows * g.mh → dst.w = g.cols * g.mw →
      src.constOn a →
      ∃ out, positionAllModules g nanv src dst false = .ok out ∧
        out.np = dst.np ∧ out.h = dst.h ∧ out.w = dst.w ∧ out.constOn a) ∧
    (∀ (a : α) (src : Frames α) (dst : Image α),
      src.np = g.nModules → src.h = g.mh → src.w = g.mw →
      dst.h = g.rows * g.mh → dst.w = g.cols * g.mw →
      (∀ m u v, m < src.np → u < src.h → v < src.w → src.px m u v = a) →
      ∃ out, positionAllModulesSingle g nanv src dst false = .ok out ∧
        out.h = dst.h ∧ out.w = dst.w ∧
        ∀ i j, i < dst.h → j < dst.w → out.px i j = a) ∧
    (∀ (a : α) (l : List (Frames α)) (dst : Frames α),
      l.length = g.nModules →
      (∀ fr ∈ l, fr.np = dst.np ∧ fr.h = g.mh ∧ fr.w = g.mw) →
      dst.h = g.rows * g.mh → dst.w = g.cols * g.mw →
      (∀ fr ∈ l, ∀ f u v, f < dst.np → u < g.mh → v < g.mw → fr.px f u v = a) →
      ∃ out, positionAllModulesVec g nanv l dst false = .ok out ∧
        out.np = dst.np ∧ out.h = dst.h ∧ out.w = dst.w ∧ out.constOn a) := by
  refine ⟨?_, ?_, ?_, ?_⟩
  · intro src dst h1 h2 h3 h4 h5 h6
    refine ⟨copyAll g src dst, ?_, (copyAll_shape g src dst).1,
      (copyAll_shape g src dst).2.1, (copyAll_shape g src dst).2.2, ?_⟩
    · rw [positionAllModules_ok g nanv src dst false h1 h2 h3 h4 h5 h6]
      rfl
    · intro f m u v hm hu hv
      exact copyAll_px_block g src dst m u v f hm hu hv
  · intro a src dst h1 h2 h3 h4 h5 h6 hconst
    refine ⟨copyAll g src dst, ?_, (copyAll_shape g src dst).1,
      (copyAll_shape g src dst).2.1, (copyAll_shape g src dst).2.2, ?_⟩
    · rw [positionAllModules_ok g nanv src dst false h1 h2 h3 h4 h5 h6]
      rfl
    · intro f i j hf hi hj
      rw [(copyAll_shape g src dst).2.1, h5] at hi
      rw [(copyAll_shape g src dst).2.2, h6] at hj
      rw [(copyAll_shape g src dst).1, ← h1] at hf
      rw [copyAll_px_canvas g src dst i j f hmh hmw hi hj]
      exact hconst f _ _ _ hf (by rw [h2]; exact moduleIndex_lt g i j hmh hmw hi hj)
        (by rw [h3]; exact Nat.mod_lt _ hmh) (by rw [h4]; exact Nat.mod_lt _ hmw)
  · intro a src dst h2 h3 h4 h5 h6 hconst
    refine ⟨{ h := dst.h
              w := dst.w
              px := (copyAll g
                { np := 1, nm := src.np, mh := src.h, mw := src.w, px := fun _ => src.px }
                { np := 1, h := dst.h, w := dst.w, px := fun _ => dst.px }).px 0 },
      ?_, rfl, rfl, ?_⟩
    · unfold positionAllModulesSingle
      rw [positionAllModules_ok g nanv _ _ false rfl h2 h3 h4 h5 h6]
      rfl
    · intro i j hi hj
      rw [h5] at hi
      rw [h6] at hj
      show (copyAll g
          { np := 1, nm := src.np, mh := src.h, mw := src.w, px := fun _ => src.px }
          { np := 1, h := dst.h, w := dst.w, px := fun _ => dst.px }).px 0 i j = a
      rw [copyAll_px_canvas g _ _ i j 0 hmh hmw hi hj]
      exact hconst _ _ _
        (by rw [h2]; exact moduleIndex_lt g i j hmh hmw hi hj)
        (by rw [h3]; exact Nat.mod_lt _ hmh) (by rw [h4]; exact Nat.mod_lt _ hmw)
  · intro a l dst hlen hshape h5 h6 hconst
    have hall : (l.all fun fr => fr.np == dst.np && fr.h == g.mh && fr.w == g.mw) = true := by
      rw [List.all_eq_true]
      intro fr hfr
      obtain ⟨e1, e2, e3⟩ := hshape fr hfr
      simp [e1, e2, e3]
    refine ⟨copyAll g
        { np := dst.np, nm := l.length, mh := g.mh, mw := g.mw,
          px := fun f m u v => (l.getD m default).px f u v } dst, ?_,
      (copyAll_shape g _ dst).1, (copyAll_shape g _ dst).2.1,
      (copyAll_shape g _ dst).2.2, ?_⟩
    · unfold positionAllModulesVec
      rw [if_pos hall]
      rw [positionAllModules_ok g nanv _ dst false rfl hlen rfl rfl h5 h6]
      rfl
    · intro f i j hf hi hj
      rw [(copyAll_shape g _ dst).2.1, h5] at hi
      rw [(copyAll_shape g _ dst).2.2, h6] at hj
      rw [(copyAll_shape g _ dst).1] at hf
      rw [copyAll_px_canvas g _ dst i j f hmh hmw hi hj]
      have hmlt : (i / g.mh) * g.cols + j / g.mw < l.length := by
        rw [hlen]
        exact moduleIndex_lt g i j hmh hmw hi hj
      exact hconst _ (getD_mem_of_lt l _ default hmlt) f _ _ hf
        (Nat.mod_lt _ hmh) (Nat.mod_lt _ hmw)

/-- Witness for C3: the all-ones 2-pulse JungFrau source on the 3×2 grid
fills the whole 1536×2048 canvas with ones. -/
theorem position_copies_blocks_witness :
    ∃ out, positionAllModules gJF (0 : ℚ) onesModulesJF zeroCanvasJF false = .ok out ∧
      out.np = zeroCanvasJF.np ∧ out.h = zeroCanvasJF.h ∧ out.w = zeroCanvasJF.w ∧
      out.constOn 1 :=
  (position_copies_blocks ℚ gJF 0 (by decide) (by decide)).2.1 1 onesModulesJF
    zeroCanvasJF rfl (by decide) rfl rfl (by decide) (by decide)
    (fun _ _ _ _ _ _ _ _ => rfl)

/-- C4: with `ignoreTileEdge = true` on a valid source and canvas, every
pixel of the family's documented border rows/columns of the output canvas
holds the sentinel in every frame, and every non-border pixel holds the
copied source value (copy then mask).  Whole-module-edge family: the top
and bottom row of every module band; cell-edge family (asic shapes dividing
the module shape): the first and last row and column of every asic band. -/
theorem position_ignore_tile_edge (α : Type) (g : Geometry) (nanv : α)
    (hmh : 0 < g.mh) (hmw : 0 < g.mw)
    (src : Modules α) (dst : Frames α)
    (h1 : src.np = dst.np) (h2 : src.nm = g.nModules) (h3 : src.mh = g.mh)
    (h4 : src.mw = g.mw) (h5 : dst.h = g.rows * g.mh) (h6 : dst.w = g.cols * g.mw) :
    ∃ out, positionAllModules g nanv src dst true = .ok out ∧
      out.np = dst.np ∧ out.h = dst.h ∧ out.w = dst.w ∧
      (g.family.cellEdge = false →
        ∀ f i j, i < g.rows * g.mh → j < g.cols * g.mw →
          out.px f i j =
            if i % g.mh = 0 ∨ i % g.mh = g.mh - 1 then nanv
            else src.px f ((i / g.mh) * g.cols + j / g.mw) (i % g.mh) (j % g.mw)) ∧
      (g.family.cellEdge = true → g.ah ∣ g.mh → g.aw ∣ g.mw →
        ∀ f i j, i < g.rows * g.mh → j < g.cols * g.mw →
          out.px f i j =
            if i % g.ah = 0 ∨ i % g.ah = g.ah - 1 ∨
               j % g.aw = 0 ∨ j % g.aw = g.aw - 1 then nanv
            else src.px f ((i / g.mh) * g.cols + j / g.mw) (i % g.mh) (j % g.mw)) := by
  refine ⟨maskCanvas g nanv (copyAll g src dst), ?_,
    (copyAll_shape g src dst).1, (copyAll_shape g src dst).2.1,
    (copyAll_shape g src dst).2.2, ?_, ?_⟩
  · rw [positionAllModules_ok g nanv src dst true h1 h2 h3 h4 h5 h6]
    rfl
  · intro hcell f i j hi hj
    have hpx : (maskCanvas g nanv (copyAll g src dst)).px f i j =
        if isBorderPx g.family (i % g.mh) (j % g.mw) = true then nanv
        else (copyAll g src dst).px f i j := rfl
    rw [hpx]
    by_cases hb : i % g.mh = 0 ∨ i % g.mh = g.mh - 1
    · rw [if_pos ((isBorderPx_whole g.family hcell _ _).mpr hb), if_pos hb]
    · rw [if_neg (fun hh => hb ((isBorderPx_whole g.family hcell _ _).mp hh)), if_neg hb]
      exact copyAll_px_canvas g src dst i j f hmh hmw hi hj
  · intro hcell hdh hdw f i j hi hj
    have hpx : (maskCanvas g nanv (copyAll g src dst)).px f i j =
        if isBorderPx g.family (i % g.mh) (j % g.mw) = true then nanv
        else (copyAll g src dst).px f i j := rfl
    rw [hpx]
    have hmm1 : i % g.mh % g.family.asicShape.1 = i % g.family.asicShape.1 :=
      Nat.mod_mod_of_dvd i hdh
    have hmm2 : j % g.mw % g.family.asicShape.2 = j % g.family.asicShape.2 :=
      Nat.mod_mod_of_dvd j hdw
    have hcond : isBorderPx g.family (i % g.mh) (j % g.mw) = true ↔
        (i % g.ah = 0 ∨ i % g.ah = g.ah - 1 ∨ j % g.aw = 0 ∨ j % g.aw = g.aw - 1) := by
      rw [isBorderPx_cell g.family hcell, hmm1, hmm2]
      exact Iff.rfl
    by_cases hb : i % g.ah = 0 ∨ i % g.ah = g.ah - 1 ∨
        j % g.aw = 0 ∨ j % g.aw = g.aw - 1
    · rw [if_pos (hcond.mpr hb), if_pos hb]
    · rw [if_neg (fun hh => hb (hcond.mp hh)), if_neg hb]
      exact copyAll_px_canvas g src dst i j f hmh hmw hi hj

/-- Witness for C4: the all-ones JungFrau source assembled with
`ignoreTileEdge = true` on the 3×2 grid. -/
theorem position_ignore_tile_edge_witness :
    ∃ out, positionAllModules gJF (0 : ℚ) onesModulesJF zeroCanvasJF true = .ok out ∧
      out.np = zeroCanvasJF.np ∧ out.h = zeroCanvasJF.h ∧ out.w = zeroCanvasJF.w ∧
      (gJF.family.cellEdge = false →
        ∀ f i j, i < gJF.rows * gJF.mh → j < gJF.cols * gJF.mw →
          out.px f i j =
            if i % gJF.mh = 0 ∨ i % gJF.mh = gJF.mh - 1 then (0 : ℚ)
            else onesModulesJF.px f ((i / gJF.mh) * gJF.cols + j / gJF.mw)
              (i % gJF.mh) (j % gJF.mw)) ∧
      (gJF.family.cellEdge = true → gJF.ah ∣ gJF.mh → gJF.aw ∣ gJF.mw →
        ∀ f i j, i < gJF.rows * gJF.mh → j < gJF.cols * gJF.mw →
          out.px f i j =
            if i % gJF.ah = 0 ∨ i % gJF.ah = gJF.ah - 1 ∨
               j % gJF.aw = 0 ∨ j % gJF.aw = gJF.aw - 1 then (0 : ℚ)
            else onesModulesJF.px f ((i / gJF.mh) * gJF.cols + j / gJF.mw)
              (i % gJF.mh) (j % gJF.mw)) :=
  position_ignore_tile_edge ℚ gJF 0 (by decide) (by decide) onesModulesJF
    zeroCanvasJF rfl (by decide) rfl rfl (by decide) (by decide)

/-- Extraction after copy recovers the source pixel of every module. -/
theorem extract_copy_px {α : Type} (g : Geometry) (src : Modules α)
    (cv0 : Frames α) (dst0 : Modules α) (m u v f : Nat)
    (hm : m < g.nModules) (hu : u < g.mh) (hv : v < g.mw) :
    (extractAll g (copyAll g src cv0) dst0).px f m u v = src.px f m u v := by
  rw [extractAll_px g (copyAll g src cv0) dst0 m u v f hm hu hv]
  exact copyAll_px_block g src cv0 m u v f hm hu hv

/-- Success form of the single-frame `positionAllModules` overload. -/
theorem positionAllModulesSingle_ok {α : Type} (g : Geometry) (nanv : α)
    (src : Frames α) (dst : Image α)
    (h2 : src.np = g.nModules) (h3 : src.h = g.mh) (h4 : src.w = g.mw)
    (h5 : dst.h = g.rows * g.mh) (h6 : dst.w = g.cols * g.mw) :
    positionAllModulesSingle g nanv src dst false =
      .ok { h := dst.h
            w := dst.w
            px := (copyAll g
              { np := 1, nm := src.np, mh := src.h, mw := src.w, px := fun _ => src.px }
              { np := 1, h := dst.h, w := dst.w, px := fun _ => dst.px }).px 0 } := by
  unfold positionAllModulesSingle
  rw [positionAllModules_ok g nanv _ _ false rfl h2 h3 h4 h5 h6]
  rfl

/-- Success form of the single-frame `dismantleAllModules` overload. -/
theorem dismantleAllModulesSingle_ok {α : Type} (g : Geometry)
    (src : Image α) (dst : Frames α)
    (h2 : src.h = g.rows * g.mh) (h3 : src.w = g.cols * g.mw)
    (h4 : dst.np = g.nModules) (h5 : dst.h = g.mh) (h6 : dst.w = g.mw) :
    dismantleAllModulesSingle g src dst =
      .ok { np := dst.np
            h := dst.h
            w := dst.w
            px := (extractAll g
              { np := 1, h := src.h, w := src.w, px := fun _ => src.px }
              { np := 1, nm := dst.np, mh := dst.h, mw := dst.w,
                px := fun _ => dst.px }).px 0 } := by
  unfold dismantleAllModulesSingle
  rw [dismantleAllModules_ok g _ _ rfl h2 h3 h4 h5 h6]
  rfl

/-- Success form of the collection `positionAllModules` overload. -/
theorem positionAllModulesVec_ok {α : Type} [Inhabited α] (g : Geometry) (nanv : α)
    (l : List (Frames α)) (dst : Frames α)
    (hall : (l.all fun fr => fr.np == dst.np && fr.h == g.mh && fr.w == g.mw) = true)
    (hlen : l.length = g.nModules)
    (h5 : dst.h = g.rows * g.mh) (h6 : dst.w = g.cols * g.mw) :
    positionAllModulesVec g nanv l dst false =
      .ok (copyAll g
        { np := dst.np, nm := l.length, mh := g.mh, mw := g.mw,
          px := fun f m u v => (l.getD m default).px f u v } dst) := by
  unfold positionAllModulesVec
  rw [if_pos hall, positionAllModules_ok g nanv _ dst false rfl hlen rfl rfl h5 h6]
  rfl

/-- Success form of the collection `dismantleAllModules` overload. -/
theorem dismantleAllModulesVec_ok {α : Type} [Inhabited α] (g : Geometry)
    (src : Frames α) (dst : List (Frames α))
    (hall : (dst.all fun fr => fr.np == src.np && fr.h == g.mh && fr.w == g.mw) = true)
    (h2 : src.h = g.rows * g.mh) (h3 : src.w = g.cols * g.mw)
    (h4 : dst.length = g.nModules) :
    dismantleAllModulesVec g src dst =
      .ok ((List.range dst.length).map
        (fun m =>
          { np := src.np
            h := g.mh
            w := g.mw
            px := fun f u v =>
              (extractAll g src
                { np := src.np, nm := dst.length, mh := g.mh, mw := g.mw,
                  px := fun f m u v => (dst.getD m default).px f u v }).px f m u v })) := by
  unfold dismantleAllModulesVec
  rw [if_pos hall, dismantleAllModules_ok g src _ rfl h2 h3 h4 rfl rfl]

/-- Success form of the single-frame collection `positionAllModules` overload. -/
theorem positionAllModulesVecSingle_ok {α : Type} [Inhabited α] (g : Geometry) (nanv : α)
    (l : List (Image α)) (dst : Image α)
    (hall : (l.all fun im => im.h == g.mh && im.w == g.mw) = true)
    (hlen : l.length = g.nModules)
    (h5 : dst.h = g.rows * g.mh) (h6 : dst.w = g.cols * g.mw) :
    positionAllModulesVecSingle g nanv l dst false =
      .ok { h := dst.h
            w := dst.w
            px := (copyAll g
              { np := 1, nm := l.length, mh := g.mh, mw := g.mw,
                px := fun _ m u v => (l.getD m default).px u v }
              { np := 1, h := dst.h, w := dst.w, px := fun _ => dst.px }).px 0 } := by
  unfold positionAllModulesVecSingle
  rw [if_pos hall, positionAllModulesSingle_ok g nanv _ dst hlen rfl rfl h5 h6]

/-- Success form of the single-frame collection `dismantleAllModules` overload. -/
theorem dismantleAllModulesVecSingle_ok {α : Type} [Inhabited α] (g : Geometry)
    (src : Image α) (dst : List (Image α))
    (hall : (dst.all fun im => im.h == g.mh && im.w == g.mw) = true)
    (h2 : src.h = g.rows * g.mh) (h3 : src.w = g.cols * g.mw)
    (h4 : dst.length = g.nModules) :
    dismantleAllModulesVecSingle g src dst =
      .ok ((List.range dst.length).map
        (fun m =>
          { h := g.mh
            w := g.mw
            px := fun u v =>
              (extractAll g
                { np := 1, h := src.h, w := src.w, px := fun _ => src.px }
                { np := 1, nm := dst.length, mh := g.mh, mw := g.mw,
                  px := fun _ m u v => (dst.getD m default).px u v }).px 0 m u v })) := by
  unfold dismantleAllModulesVecSingle
  rw [if_pos hall, dismantleAllModulesSingle_ok g src _ h2 h3 h4 rfl rfl]

/-- C1: round-trip identity — assembling valid module data with
`positionAllModules` into a correctly shaped canvas and then extracting
with `dismantleAllModules` into a destination of the source's shape
reproduces the source exactly, for any geometry (hence both detector
families), in the frame-batched contiguous form (clause 1), the
single-frame contiguous form (clause 2), the frame-batched per-module
collection form (clause 3), and the single-frame per-module collection
form (clause 4). -/
theorem roundtrip_identity (α : Type) [Inhabited α] (g : Geometry) (nanv : α) :
    (∀ (src : Modules α) (cv0 : Frames α) (dst0 : Modules α),
      src.np = cv0.np → src.nm = g.nModules → src.mh = g.mh → src.mw = g.mw →
      cv0.h = g.rows * g.mh → cv0.w = g.cols * g.mw →
      dst0.np = src.np → dst0.nm = src.nm → dst0.mh = src.mh → dst0.mw = src.mw →
      ∃ cv, positionAllModules g nanv src cv0 false = .ok cv ∧
      ∃ out, dismantleAllModules g cv dst0 = .ok out ∧
        ∀ f m u v, f < src.np → m < src.nm → u < src.mh → v < src.mw →
          out.px f m u v = src.px f m u v) ∧
    (∀ (src : Frames α) (cv0 : Image α) (dst0 : Frames α),
      src.np = g.nModules → src.h = g.mh → src.w = g.mw →
      cv0.h = g.rows * g.mh → cv0.w = g.cols * g.mw →
      dst0.np = src.np → dst0.h = src.h → dst0.w = src.w →
      ∃ cv, positionAllModulesSingle g nanv src cv0 false = .ok cv ∧
      ∃ out, dismantleAllModulesSingle g cv dst0 = .ok out ∧
        ∀ m u v, m < src.np → u < src.h → v < src.w →
          out.px m u v = src.px m u v) ∧
    (∀ (l : List (Frames α)) (cv0 : Frames α) (dst0 : List (Frames α)),
      l.length = g.nModules →
      (∀ fr ∈ l, fr.np = cv0.np ∧ fr.h = g.mh ∧ fr.w = g.mw) →
      cv0.h = g.rows * g.mh → cv0.w = g.cols * g.mw →
      dst0.length = g.nModules →
      (∀ fr ∈ dst0, fr.np = cv0.np ∧ fr.h = g.mh ∧ fr.w = g.mw) →
      ∃ cv, positionAllModulesVec g nanv l cv0 false = .ok cv ∧
      ∃ out, dismantleAllModulesVec g cv dst0 = .ok out ∧
        out.length = dst0.length ∧
        ∀ m f u v, m < g.nModules → u < g.mh → v < g.mw →
          (out.getD m default).px f u v = (l.getD m default).px f u v) ∧
    (∀ (l : List (Image α)) (cv0 : Image α) (dst0 : List (Image α)),
      l.length = g.nModules →
      (∀ im ∈ l, im.h = g.mh ∧ im.w = g.mw) →
      cv0.h = g.rows * g.mh → cv0.w = g.cols * g.mw →
      dst0.length = g.nModules →
      (∀ im ∈ dst0, im.h = g.mh ∧ im.w = g.mw) →
      ∃ cv, positionAllModulesVecSingle g nanv l cv0 false = .ok cv ∧
      ∃ out, dismantleAllModulesVecSingle g cv dst0 = .ok out ∧
        out.length = dst0.length ∧
        ∀ m u v, m < g.nModules → u < g.mh → v < g.mw →
          (out.getD m default).px u v = (l.getD m default).px u v) := by
  refine ⟨?_, ?_, ?_, ?_⟩
  · intro src cv0 dst0 h1 h2 h3 h4 h5 h6 hd1 hd2 hd3 hd4
    refine ⟨copyAll g src cv0, ?_, extractAll g (copyAll g src cv0) dst0, ?_, ?_⟩
    · rw [positionAllModules_ok g nanv src cv0 false h1 h2 h3 h4 h5 h6]
      rfl
    · apply dismantleAllModules_ok g _ dst0
      · rw [(copyAll_shape g src cv0).1, ← h1, hd1]
      · rw [(copyAll_shape g src cv0).2.1]
        exact h5
      · rw [(copyAll_shape g src cv0).2.2]
        exact h6
      · rw [hd2]
        exact h2
      · rw [hd3]
        exact h3
      · rw [hd4]
        exact h4
    · intro f m u v _ hm hu hv
      exact extract_copy_px g src cv0 dst0 m u v f (h2 ▸ hm) (h3 ▸ hu) (h4 ▸ hv)
  · intro src cv0 dst0 h2 h3 h4 h5 h6 hd1 hd2 hd3
    refine ⟨_, positionAllModulesSingle_ok g nanv src cv0 h2 h3 h4 h5 h6, _,
      dismantleAllModulesSingle_ok g _ dst0 h5 h6 (hd1.trans h2) (hd2.trans h3)
        (hd3.trans h4), ?_⟩
    intro m u v hm hu hv
    exact (extractAll_px g _ _ m u v 0 (h2 ▸ hm) (h3 ▸ hu) (h4 ▸ hv)).trans
      (copyAll_px_block g _ _ m u v 0 (h2 ▸ hm) (h3 ▸ hu) (h4 ▸ hv))
  · intro l cv0 dst0 hlen hshape h5 h6 hdlen hdshape
    have hall : (l.all fun fr => fr.np == cv0.np && fr.h == g.mh && fr.w == g.mw) = true := by
      rw [List.all_eq_true]
      intro fr hfr
      obtain ⟨e1, e2, e3⟩ := hshape fr hfr
      simp [e1, e2, e3]
    have hcvnp : (copyAll g
        { np := cv0.np, nm := l.length, mh := g.mh, mw := g.mw,
          px := fun f m u v => (l.getD m default).px f u v } cv0).np = cv0.np :=
      (copyAll_shape g _ cv0).1
    have hall2 : (dst0.all fun fr =>
        fr.np == (copyAll g
          { np := cv0.np, nm := l.length, mh := g.mh, mw := g.mw,
            px := fun f m u v => (l.getD m default).px f u v } cv0).np &&
        fr.h == g.mh && fr.w == g.mw) = true := by
      rw [List.all_eq_true]
      intro fr hfr
      obtain ⟨e1, e2, e3⟩ := hdshape fr hfr
      rw [hcvnp]
      simp [e1, e2, e3]
    refine ⟨_, positionAllModulesVec_ok g nanv l cv0 hall hlen h5 h6, _,
      dismantleAllModulesVec_ok g _ dst0 hall2
        (((copyAll_shape g _ cv0).2.1).trans h5) (((copyAll_shape g _ cv0).2.2).trans h6)
        hdlen, ?_, ?_⟩
    · rw [List.length_map, List.length_range]
    · intro m f u v hm hu hv
      have hmd : m < dst0.length := by
        rw [hdlen]
        exact hm
      rw [getD_range_map dst0.length m _ default hmd]
      exact (extractAll_px g _ _ m u v f hm hu hv).trans
        (copyAll_px_block g _ _ m u v f hm hu hv)
  · intro l cv0 dst0 hlen hshape h5 h6 hdlen hdshape
    have hall : (l.all fun im => im.h == g.mh && im.w == g.mw) = true := by
      rw [List.all_eq_true]
      intro im him
      obtain ⟨e1, e2⟩ := hshape im him
      simp [e1, e2]
    have hall2 : (dst0.all fun im => im.h == g.mh && im.w == g.mw) = true := by
      rw [List.all_eq_true]
      intro im him
      obtain ⟨e1, e2⟩ := hdshape im him
      simp [e1, e2]
    refine ⟨_, positionAllModulesVecSingle_ok g nanv l cv0 hall hlen h5 h6, _,
      dismantleAllModulesVecSingle_ok g _ dst0 hall2 h5 h6 hdlen, ?_, ?_⟩
    · rw [List.length_map, List.length_range]
    · intro m u v hm hu hv
      have hmd : m < dst0.length := by
        rw [hdlen]
        exact hm
      rw [getD_range_map dst0.length m _ default hmd]
      exact (extractAll_px g _ _ m u v 0 hm hu hv).trans
        (copyAll_px_block g _ _ m u v 0 hm hu hv)

/-- Witness for C1: the all-ones 2-pulse JungFrau batch on the 3×2 grid is
assembled and then dismantled back into an equal batch. -/
theorem roundtrip_identity_witness :
    ∃ cv, positionAllModules gJF (0 : ℚ) onesModulesJF zeroCanvasJF false = .ok cv ∧
    ∃ out, dismantleAllModules gJF cv zeroModulesJF = .ok out ∧
      ∀ f m u v, f < onesModulesJF.np → m < onesModulesJF.nm →
        u < onesModulesJF.mh → v < onesModulesJF.mw →
        out.px f m u v = onesModulesJF.px f m u v :=
  (roundtrip_identity ℚ gJF 0).1 onesModulesJF zeroCanvasJF zeroModulesJF
    rfl (by decide) rfl rfl (by decide) (by decide) rfl rfl rfl rfl

end foam
